import Mathlib

/-!
Verification of the release orchestration script (scripts/release.py).

The script is embedded shallowly: every external effect (subprocess call,
HTTP request, sleep, countdown hold) becomes an `Event` in an explicit
trace, the remote system and the local environment become record fields
of environment structures, and each Python method becomes a Lean function
returning an `Except Err` result together with the updated state and the
list of events it performed, in order.
-/

/-! Module-level constants (release.py lines 20-26). -/

def TIMEOUT : Nat := 15 * 60

def MIN_BUILDTIME : Nat := 4 * 60

def WORKFLOW_POLL_SECONDS : Nat := 10

def WORKFLOW_NAME : String := "Publish"

def WORKFLOW_FETCH_DELAY : Nat := 10

/-- Externally visible effects of the script, in the order performed.
Diagnostic printing is not recorded; sleeps, countdown holds, API
requests and subprocess side effects are. -/
inductive Event where
  | hold : Nat → Event
  | sleepFor : Nat → Event
  | apiListWorkflows : Event
  | apiListRuns : Event
  | apiGetRun : Nat → Event
  | apiLatestRelease : Event
  | gitPush : List String → Event
  | gitTagCreate : String → Event
  | gitAdd : Event
  | gitCommit : String → Event
  | gitRevParse : Event
  | cargoPublish : Event
  | cargoGenerateLockfile : Event
  | changieBatch : String → Event
  | changieMerge : Event
  | editManifest : String → Event
  | pagerShow : Event
deriving DecidableEq, Repr

/-- Failure modes of the script: each constructor corresponds to one
raise site (ValueError or AssertionError) in release.py, except
`fuelExhausted`, an artifact of the fuel-based embedding of the poll
loop that is proved unreachable. -/
inductive Err where
  | missingToken
  | workflowNotConfigured
  | runNotFound
  | workflowFailed : String → Err
  | timeoutExpired
  | precondition : String → Err
  | invalidVersion
  | tagAlreadyExists : String → Err
  | releaseMismatch : String → Err
  | userRejection
  | fuelExhausted
deriving DecidableEq, Repr

/-- One workflow-run record, restricted to the fields release.py reads. -/
structure Run where
  id : Nat
  run_number : Nat
  head_sha : String
  head_branch : String
  status : String
  conclusion : String
deriving DecidableEq, Repr

/-- One workflow-definition record, restricted to the fields read. -/
structure Workflow where
  id : Nat
  name : String
deriving DecidableEq, Repr

/-- Responses of the remote system during one waiting phase:
the workflow-definition listing, the i-th runs-listing response, the
i-th poll of a run by id, and the tag of the latest published release. -/
structure GithubEnv where
  workflows : List Workflow
  runsListings : Nat → List Run
  runPolls : Nat → Run
  latestReleaseTag : String

/-- The Github client object: the bearer token and the lazily memoized
workflow identifier (fields token and _workflow_id, release.py line 44-46). -/
structure Github where
  token : String
  workflowId : Option Nat
deriving DecidableEq, Repr

/-- Python max(runs, key=lambda run: run.run_number) over a nonempty list
given as head and tail: the first run with the greatest run_number wins. -/
def pyMaxByRunNumber (r : Run) (rs : List Run) : Run :=
  rs.foldl (fun acc x => if x.run_number > acc.run_number then x else acc) r

/-- Github._fetch_workflow_id (release.py lines 114-120): list the
workflow definitions and return the id of the first one named
WORKFLOW_NAME; failing that is fatal. -/
def fetchWorkflowId (env : GithubEnv) : Except Err Nat × List Event :=
  match env.workflows.find? (fun w => w.name = WORKFLOW_NAME) with
  | some w => (.ok w.id, [.apiListWorkflows])
  | none => (.error .workflowNotConfigured, [.apiListWorkflows])

/-- The workflow_id property (release.py lines 55-59): memoized behind
the check `if not self._workflow_id`, which treats both None and 0 as
unset, hence the `some (n + 1)` pattern. -/
def Github.getWorkflowId (g : Github) (env : GithubEnv) :
    Except Err Nat × Github × List Event :=
  match g.workflowId with
  | some (n + 1) => (.ok (n + 1), g, [])
  | _ =>
    match fetchWorkflowId env with
    | (.ok wfId, tr) => (.ok wfId, { g with workflowId := some wfId }, tr)
    | (.error e, tr) => (.error e, g, tr)

/-- The retry loop of Github._get_run_id_by (release.py lines 95-108):
up to `remaining` fetch attempts; an empty filtered listing sleeps for
the current backoff and doubles it; a single match returns its id; with
several matches the one with the greatest run_number wins. Exhausting
the attempts raises the RunNotFound assertion. -/
def getRunIdLoop (pred : Run → Bool) (fetches : Nat → List Run) :
    Nat → Nat → Nat → Except Err Nat × List Event
  | _, _, 0 => (.error .runNotFound, [])
  | attempt, backoff, remaining + 1 =>
    match (fetches attempt).filter pred with
    | [] =>
      let (res, tr) := getRunIdLoop pred fetches (attempt + 1) (backoff * 2) remaining
      (res, .apiListRuns :: .sleepFor backoff :: tr)
    | [r] => (.ok r.id, [.apiListRuns])
    | r :: rs => (.ok (pyMaxByRunNumber r rs).id, [.apiListRuns])

/-- Github._get_run_id_by (release.py lines 92-108): hold the fixed
pre-resolve delay, resolve the memoized workflow id, then run the
bounded-retry loop with initial backoff 1 and 4 total attempts. -/
def Github.getRunIdBy (g : Github) (env : GithubEnv) (pred : Run → Bool) :
    Except Err Nat × Github × List Event :=
  match g.getWorkflowId env with
  | (.error e, g1, tr) => (.error e, g1, .hold WORKFLOW_FETCH_DELAY :: tr)
  | (.ok _, g1, tr) =>
    let (res, tr2) := getRunIdLoop pred env.runsListings 0 1 4
    (res, g1, .hold WORKFLOW_FETCH_DELAY :: (tr ++ tr2))

/-- The poll loop of Github._wait_for_workflow_run (release.py lines
68-84), driven by timeout_iter (lines 261-267). Iteration i fetches the
run; a completed run is classified by its conclusion; otherwise the loop
sleeps WORKFLOW_POLL_SECONDS and then timeout_iter compares the elapsed
monotonic time, (i + 1) * WORKFLOW_POLL_SECONDS, against the deadline
fixed once at entry. The structural fuel only bounds the recursion; fuel
TIMEOUT strictly exceeds the 90 iterations the deadline permits, and the
`fuelExhausted` branch is proved unreachable. -/
def waitLoop (runId : Nat) (env : GithubEnv) : Nat → Nat → Except Err Unit × List Event
  | _, 0 => (.error .fuelExhausted, [])
  | i, fuel + 1 =>
    let run := env.runPolls i
    if run.status = "completed" then
      if run.conclusion = "success" then (.ok (), [.apiGetRun runId])
      else (.error (.workflowFailed run.conclusion), [.apiGetRun runId])
    else
      if TIMEOUT ≤ (i + 1) * WORKFLOW_POLL_SECONDS then
        (.error .timeoutExpired, [.apiGetRun runId, .sleepFor WORKFLOW_POLL_SECONDS])
      else
        let (res, tr) := waitLoop runId env (i + 1) fuel
        (res, .apiGetRun runId :: .sleepFor WORKFLOW_POLL_SECONDS :: tr)

/-- Github._wait_for_workflow_run (release.py lines 65-84): an
unconditional MIN_BUILDTIME hold, then the poll loop. -/
def waitForWorkflowRun (runId : Nat) (env : GithubEnv) : Except Err Unit × List Event :=
  let (res, tr) := waitLoop runId env 0 TIMEOUT
  (res, .hold MIN_BUILDTIME :: tr)

/-- Github.wait_for_commit_workflow_success (release.py lines 61-63):
resolve the run whose head_sha is the given commit, then await it. -/
def Github.waitForCommitWorkflowSuccess (g : Github) (env : GithubEnv) (commit : String) :
    Except Err Unit × Github × List Event :=
  match g.getRunIdBy env (fun run => run.head_sha = commit) with
  | (.error e, g1, tr) => (.error e, g1, tr)
  | (.ok runId, g1, tr) =>
    let (res, tr2) := waitForWorkflowRun runId env
    (res, g1, tr ++ tr2)

/-- Github.wait_for_release_workflow (release.py lines 110-112): resolve
the run whose head_branch is the given tag, then await it. -/
def Github.waitForReleaseWorkflow (g : Github) (env : GithubEnv) (version : String) :
    Except Err Unit × Github × List Event :=
  match g.getRunIdBy env (fun run => run.head_branch = version) with
  | (.error e, g1, tr) => (.error e, g1, tr)
  | (.ok runId, g1, tr) =>
    let (res, tr2) := waitForWorkflowRun runId env
    (res, g1, tr ++ tr2)

/-! Version-argument handling (release.py lines 304-318). Strings are
manipulated through their character lists so every definition reduces
in the kernel. -/

/-- Python str.lower restricted to the ASCII range the script deals in. -/
def pyLower (s : List Char) : List Char := s.map Char.toLower

/-- Whitespace characters recognized by the embedding of str.strip. -/
def isSpaceChar (c : Char) : Bool := c = ' ' ∨ c = '\t' ∨ c = '\n' ∨ c = '\r'

/-- Python str.strip: drop whitespace from both ends. -/
def pyStrip (s : List Char) : List Char :=
  ((s.dropWhile isSpaceChar).reverse.dropWhile isSpaceChar).reverse

/-- The normalization raw_arg.lower().strip() (release.py line 306). -/
def pyLowerStrip (s : String) : String := String.mk (pyStrip (pyLower s.data))

/-- Python str.strip as a String-to-String map. -/
def pyStripS (s : String) : String := String.mk (pyStrip s.data)

/-- The core of the anchored pattern: one or more digits, a dot, one or
more digits, a dot, one or more digits, end of input. -/
def semverCore (l : List Char) : Bool :=
  match l.takeWhile Char.isDigit, l.dropWhile Char.isDigit with
  | _ :: _, '.' :: r1 =>
    match r1.takeWhile Char.isDigit, r1.dropWhile Char.isDigit with
    | _ :: _, '.' :: r2 =>
      match r2.takeWhile Char.isDigit, r2.dropWhile Char.isDigit with
      | _ :: _, [] => true
      | _, _ => false
    | _, _ => false
  | _, _ => false

/-- The anchored regular expression of release.py line 312 with its one
capture group: an optional leading v, then the dotted numeric core;
returns the capture group. A leading v must be consumed by the optional
prefix since no digit matches it. -/
def semverMatch (l : List Char) : Option (List Char) :=
  match l with
  | 'v' :: rest => if semverCore rest then some rest else none
  | _ => if semverCore l then some l else none

/-- External collaborators of determine_version: the changie subprocess
(its captured standard output, already stripped once by _proc_run) and
the existence test for the tag file of a version. -/
structure VersionEnv where
  changieNext : String → String
  tagExists : String → Bool

/-- determine_version (release.py lines 304-318): normalize the raw
argument; a literal bump level asks changie for the next version, any
other argument must match the anchored semantic-version pattern; in both
cases an already existing tag for the resulting version is fatal. -/
def determine_version (env : VersionEnv) (raw_arg : String) : Except Err String :=
  let version_arg := pyLowerStrip raw_arg
  let versionRes : Except Err String :=
    if version_arg ∈ (["major", "minor", "patch"] : List String) then
      .ok (pyStripS (env.changieNext version_arg))
    else
      match semverMatch version_arg.data with
      | none => .error .invalidVersion
      | some group1 => .ok (String.mk group1)
  match versionRes with
  | .error e => .error e
  | .ok version =>
    if env.tagExists version then .error (.tagAlreadyExists version) else .ok version

/-! The release orchestrator (release.py lines 138-239). -/

/-- ReleaseState (release.py lines 138-142): the three ordering flags. -/
structure ReleaseState where
  did_commit_run : Bool
  did_push_commit : Bool
  did_release : Bool
deriving DecidableEq, Repr

/-- The initial state: all flags false. -/
def ReleaseState.start : ReleaseState := ⟨false, false, false⟩

/-- The local environment of one orchestrator run: the GITHUB_TOKEN
variable, the collaborators of determine_version, the output of git
rev-parse, the answer to the Cargo.toml confirmation prompt, and the
remote responses during the commit-wait and tag-wait phases. -/
structure ActorEnv where
  token : Option String
  version : VersionEnv
  revParse : String
  confirmAnswer : Bool
  commitPhase : GithubEnv
  tagPhase : GithubEnv

/-- ReleaseActor (release.py lines 145-152): the version argument, the
lazily created Github client, the memoized commit hash and version, and
the flag state. -/
structure ReleaseActor where
  version_arg : String
  github : Option Github
  commitHashCache : Option String
  newVersionCache : Option String
  state : ReleaseState
deriving DecidableEq, Repr

/-- A fresh actor (release.py lines 146-152). -/
def ReleaseActor.start (arg : String) : ReleaseActor :=
  ⟨arg, none, none, none, ReleaseState.start⟩

/-- The result of one orchestrator step: outcome, updated actor, trace. -/
abbrev StepResult := Except Err Unit × ReleaseActor × List Event

/-- The github property (release.py lines 154-158) together with
Github.from_env (lines 48-53): on first access the token is read from
the environment, an unset or empty token being fatal; afterwards the
constructed client is reused. -/
def ReleaseActor.getGithub (a : ReleaseActor) (env : ActorEnv) :
    Except Err (Github × ReleaseActor) :=
  match a.github with
  | some g => .ok (g, a)
  | none =>
    match env.token with
    | none => .error .missingToken
    | some t =>
      if t = "" then .error .missingToken
      else .ok (⟨t, none⟩, { a with github := some ⟨t, none⟩ })

/-- The commit_hash property (release.py lines 166-174): reading it
before the commit step is a contract violation; otherwise the hash is
obtained from git rev-parse once and memoized. -/
def ReleaseActor.getCommitHash (a : ReleaseActor) (env : ActorEnv) :
    Except Err (String × ReleaseActor) × List Event :=
  if a.state.did_commit_run = false then
    (.error (.precondition "Tried to read commit hash before committing."), [])
  else
    match a.commitHashCache with
    | some h => (.ok (h, a), [])
    | none =>
      (.ok (env.revParse, { a with commitHashCache := some env.revParse }), [.gitRevParse])

/-- The new_version property (release.py lines 176-180): memoized
determine_version. -/
def ReleaseActor.getNewVersion (a : ReleaseActor) (env : ActorEnv) :
    Except Err (String × ReleaseActor) :=
  match a.newVersionCache with
  | some v => .ok (v, a)
  | none =>
    match determine_version env.version a.version_arg with
    | .error e => .error e
    | .ok v => .ok (v, { a with newVersionCache := some v })

/-- update_cargo_toml (release.py lines 182-200): write the new version
into the manifest, page it for review, abort on a negative confirmation,
then regenerate the lock file. -/
def ReleaseActor.update_cargo_toml (a : ReleaseActor) (env : ActorEnv) : StepResult :=
  match a.getNewVersion env with
  | .error e => (.error e, a, [])
  | .ok (v, a1) =>
    if env.confirmAnswer = false then
      (.error .userRejection, a1, [.editManifest v, .pagerShow])
    else
      (.ok (), a1, [.editManifest v, .pagerShow, .cargoGenerateLockfile])

/-- update_changelog (release.py lines 202-205): changie batch and merge. -/
def ReleaseActor.update_changelog (a : ReleaseActor) (env : ActorEnv) : StepResult :=
  match a.getNewVersion env with
  | .error e => (.error e, a, [])
  | .ok (v, a1) => (.ok (), a1, [.changieBatch v, .changieMerge])

/-- commit_release (release.py lines 207-209) with commit_changes
(lines 356-368): stage the release files, commit, set did_commit_run. -/
def ReleaseActor.commit_release (a : ReleaseActor) (env : ActorEnv) : StepResult :=
  match a.getNewVersion env with
  | .error e => (.error e, a, [])
  | .ok (v, a1) =>
    (.ok (), { a1 with state := { a1.state with did_commit_run := true } },
      [.gitAdd, .gitCommit ("Release v" ++ v)])

/-- push_commit (release.py lines 211-217): pushing before the commit
step is a contract violation; otherwise push to master, then wait for
the commit workflow (creating the Github client and reading the commit
hash on the way), and only on success set did_push_commit. -/
def ReleaseActor.push_commit (a : ReleaseActor) (env : ActorEnv) : StepResult :=
  if a.state.did_commit_run = false then
    (.error (.precondition "Tried to push before committing."), a, [])
  else
    let tr0 := [Event.gitPush ["origin", "master"]]
    match a.getGithub env with
    | .error e => (.error e, a, tr0)
    | .ok (g, a1) =>
      match a1.getCommitHash env with
      | (.error e, tr1) => (.error e, a1, tr0 ++ tr1)
      | (.ok (h, a2), tr1) =>
        let (res, g1, tr2) := g.waitForCommitWorkflowSuccess env.commitPhase h
        let a3 := { a2 with github := some g1 }
        match res with
        | .error e => (.error e, a3, tr0 ++ tr1 ++ tr2)
        | .ok _ =>
          (.ok (), { a3 with state := { a3.state with did_push_commit := true } },
            tr0 ++ tr1 ++ tr2)

/-- check_release (release.py lines 228-234): fetch the latest release;
a tag other than v followed by the computed version is fatal; otherwise
set did_release. -/
def ReleaseActor.check_release (a : ReleaseActor) (env : ActorEnv) : StepResult :=
  match a.getGithub env with
  | .error e => (.error e, a, [])
  | .ok (_, a1) =>
    match a1.getNewVersion env with
    | .error e => (.error e, a1, [.apiLatestRelease])
    | .ok (v, a2) =>
      if env.tagPhase.latestReleaseTag ≠ "v" ++ v then
        (.error (.releaseMismatch env.tagPhase.latestReleaseTag), a2, [.apiLatestRelease])
      else
        (.ok (), { a2 with state := { a2.state with did_release := true } },
          [.apiLatestRelease])

/-- run_release (release.py lines 219-226): tagging before the push step
is a contract violation; otherwise create and push the annotated tag,
wait for the tag workflow, then verify the published release. -/
def ReleaseActor.run_release (a : ReleaseActor) (env : ActorEnv) : StepResult :=
  if a.state.did_push_commit = false then
    (.error (.precondition "Tried to tag before committing to master"), a, [])
  else
    match a.getNewVersion env with
    | .error e => (.error e, a, [])
    | .ok (v, a1) =>
      let tag := "v" ++ v
      let tr0 := [Event.gitTagCreate tag, Event.gitPush ["origin", tag]]
      match a1.getGithub env with
      | .error e => (.error e, a1, tr0)
      | .ok (g, a2) =>
        let (res, g1, tr1) := g.waitForReleaseWorkflow env.tagPhase tag
        let a3 := { a2 with github := some g1 }
        match res with
        | .error e => (.error e, a3, tr0 ++ tr1)
        | .ok _ =>
          let (res2, a4, tr2) := a3.check_release env
          (res2, a4, tr0 ++ tr1 ++ tr2)

/-- cargo_publish (release.py lines 236-239): publishing before the
release has been verified is a contract violation; otherwise run the
publish command. -/
def ReleaseActor.cargo_publish (a : ReleaseActor) (_env : ActorEnv) : StepResult :=
  if a.state.did_release = false then
    (.error (.precondition "Tried to publish cargo package before release."), a, [])
  else
    (.ok (), a, [.cargoPublish])

/-- The public orchestrator steps, in the order main invokes them. -/
inductive StepOp where
  | updateCargoToml
  | updateChangelog
  | commitRelease
  | pushCommit
  | runRelease
  | cargoPublishOp
deriving DecidableEq, Repr

/-- Dispatch one orchestrator step. -/
def runStep (env : ActorEnv) (a : ReleaseActor) : StepOp → StepResult
  | .updateCargoToml => a.update_cargo_toml env
  | .updateChangelog => a.update_changelog env
  | .commitRelease => a.commit_release env
  | .pushCommit => a.push_commit env
  | .runRelease => a.run_release env
  | .cargoPublishOp => a.cargo_publish env

/-- The actor after one step, whether the step succeeded or raised. -/
def stepActor (env : ActorEnv) (a : ReleaseActor) (op : StepOp) : ReleaseActor :=
  (runStep env a op).2.1

/-- The actor after a sequence of steps. -/
def runOps (env : ActorEnv) (a : ReleaseActor) : List StepOp → ReleaseActor
  | [] => a
  | op :: ops => runOps env (stepActor env a op) ops

/-- Sequencing with the exception semantics of main: a raised error
aborts the run and later steps are not invoked. -/
def seqStep (r : StepResult) (env : ActorEnv) (f : ReleaseActor → ActorEnv → StepResult) :
    StepResult :=
  match r with
  | (.error e, a, tr) => (.error e, a, tr)
  | (.ok _, a, tr) =>
    let (res, a1, tr1) := f a env
    (res, a1, tr ++ tr1)

/-- run_release followed, as in main, by cargo_publish. -/
def runReleaseThenPublish (a : ReleaseActor) (env : ActorEnv) : StepResult :=
  seqStep (a.run_release env) env ReleaseActor.cargo_publish

/-- main (release.py lines 383-411) after argument parsing: the six
steps in order, stopping at the first raised error. -/
def mainSteps (env : ActorEnv) (version_arg : String) : StepResult :=
  seqStep (seqStep (seqStep (seqStep (seqStep
    ((ReleaseActor.start version_arg).update_cargo_toml env) env
      ReleaseActor.update_changelog) env
      ReleaseActor.commit_release) env
      ReleaseActor.push_commit) env
      ReleaseActor.run_release) env
      ReleaseActor.cargo_publish

/-! Specification-side predicates, used to state the claims without
restating the embedded code. -/

/-- Monotone flag order: no flag moves from true back to false. -/
def ReleaseState.mono (s t : ReleaseState) : Prop :=
  (s.did_commit_run = true → t.did_commit_run = true) ∧
  (s.did_push_commit = true → t.did_push_commit = true) ∧
  (s.did_release = true → t.did_release = true)

/-- The ordering invariant of the specification: pushed implies
committed and released implies pushed. -/
def ReleaseState.inv (s : ReleaseState) : Prop :=
  (s.did_push_commit = true → s.did_commit_run = true) ∧
  (s.did_release = true → s.did_push_commit = true)

/-- A nonempty list of digit characters. -/
def GoodNum (l : List Char) : Prop := l ≠ [] ∧ ∀ c ∈ l, c.isDigit = true

/-- The specification wording of a semantic version X.Y.Z: three
nonempty digit groups separated by dots. -/
def SemverShape (core : List Char) : Prop :=
  ∃ a b c, GoodNum a ∧ GoodNum b ∧ GoodNum c ∧ core = a ++ '.' :: (b ++ '.' :: c)

/-! Concrete sample data for the witness and counterexample theorems. -/

/-- A completed, successful run of the commit-triggered workflow. -/
def runOkCommit : Run := ⟨42, 7, "abc123", "master", "completed", "success"⟩

/-- A completed, successful run of the tag-triggered workflow. -/
def runOkTag : Run := ⟨43, 8, "abc123", "v1.2.3", "completed", "success"⟩

/-- A second matching tag run with a greater run number. -/
def runOkTag2 : Run := ⟨44, 9, "abc123", "v1.2.3", "completed", "success"⟩

/-- A run that is still in progress. -/
def runBusy : Run := ⟨42, 7, "abc123", "master", "in_progress", ""⟩

/-- The Publish workflow definition. -/
def wfPublish : Workflow := ⟨5, "Publish"⟩

/-- Remote responses while waiting on the commit workflow: the matching
run is listed immediately and completes successfully on the first poll. -/
def gEnvCommit : GithubEnv := ⟨[wfPublish], fun _ => [runOkCommit], fun _ => runOkCommit, "v1.2.3"⟩

/-- Remote responses while waiting on the tag workflow, ending with the
expected latest release tag. -/
def gEnvTag : GithubEnv := ⟨[wfPublish], fun _ => [runOkTag], fun _ => runOkTag, "v1.2.3"⟩

/-- Like gEnvTag but the latest published release carries a different tag. -/
def gEnvTagBad : GithubEnv := ⟨[wfPublish], fun _ => [runOkTag], fun _ => runOkTag, "v1.2.2"⟩

/-- Remote responses whose run never completes. -/
def gEnvBusy : GithubEnv := ⟨[wfPublish], fun _ => [runOkCommit], fun _ => runBusy, "v1.2.3"⟩

/-- Collaborators of determine_version: changie proposes 1.2.4 and no
tag file exists yet. -/
def vEnvOk : VersionEnv := ⟨fun _ => "1.2.4", fun _ => false⟩

/-- A benign local environment with the token present. -/
def envOk : ActorEnv := ⟨some "tok", vEnvOk, "abc123", true, gEnvCommit, gEnvTag⟩

/-- The same environment with the GITHUB_TOKEN variable unset. -/
def envNoToken : ActorEnv := ⟨none, vEnvOk, "abc123", true, gEnvCommit, gEnvTag⟩

/-- The same environment but the latest published release has the wrong tag. -/
def envTagBad : ActorEnv := ⟨some "tok", vEnvOk, "abc123", true, gEnvCommit, gEnvTagBad⟩

/-- An actor that has committed and pushed, with the version memoized. -/
def actorPushed : ReleaseActor := ⟨"1.2.3", none, none, some "1.2.3", ⟨true, true, false⟩⟩

/-- An actor that has only committed, with the version memoized. -/
def actorCommitted : ReleaseActor := ⟨"1.2.3", none, none, some "1.2.3", ⟨true, false, false⟩⟩

/-! Helper lemmas about the memoizing properties: none of them touches
the flag state, and each reports the value it memoizes. -/

theorem getGithub_fields (a : ReleaseActor) (env : ActorEnv) (g : Github) (a1 : ReleaseActor)
    (h : a.getGithub env = .ok (g, a1)) :
    a1.state = a.state ∧ a1.newVersionCache = a.newVersionCache ∧
    a1.commitHashCache = a.commitHashCache ∧ a1.github = some g := by
  unfold ReleaseActor.getGithub at h
  split at h
  · rename_i g0 hg
    simp only [Except.ok.injEq, Prod.mk.injEq] at h
    obtain ⟨rfl, rfl⟩ := h
    exact ⟨rfl, rfl, rfl, hg⟩
  · rename_i hg
    split at h
    · exact absurd h (by simp)
    · rename_i t
      split at h
      · exact absurd h (by simp)
      · simp only [Except.ok.injEq, Prod.mk.injEq] at h
        obtain ⟨rfl, rfl⟩ := h
        exact ⟨rfl, rfl, rfl, rfl⟩

theorem getNewVersion_fields (a : ReleaseActor) (env : ActorEnv) (v : String) (a1 : ReleaseActor)
    (h : a.getNewVersion env = .ok (v, a1)) :
    a1.state = a.state ∧ a1.newVersionCache = some v ∧
    a1.commitHashCache = a.commitHashCache ∧ a1.github = a.github := by
  unfold ReleaseActor.getNewVersion at h
  split at h
  · rename_i v0 hv
    simp only [Except.ok.injEq, Prod.mk.injEq] at h
    obtain ⟨rfl, rfl⟩ := h
    exact ⟨rfl, hv, rfl, rfl⟩
  · split at h
    · exact absurd h (by simp)
    · simp only [Except.ok.injEq, Prod.mk.injEq] at h
      obtain ⟨rfl, rfl⟩ := h
      exact ⟨rfl, rfl, rfl, rfl⟩

theorem getCommitHash_fields (a : ReleaseActor) (env : ActorEnv) (hsh : String)
    (a1 : ReleaseActor) (h : (a.getCommitHash env).1 = .ok (hsh, a1)) :
    a1.state = a.state ∧ a1.newVersionCache = a.newVersionCache ∧ a1.github = a.github := by
  unfold ReleaseActor.getCommitHash at h
  split at h
  · exact absurd h (by simp)
  · split at h
    · simp only [Except.ok.injEq, Prod.mk.injEq] at h
      obtain ⟨rfl, rfl⟩ := h
      exact ⟨rfl, rfl, rfl⟩
    · simp only [Except.ok.injEq, Prod.mk.injEq] at h
      obtain ⟨rfl, rfl⟩ := h
      exact ⟨rfl, rfl, rfl⟩

theorem determine_version_error_cases (env : VersionEnv) (raw : String) (e : Err)
    (h : determine_version env raw = .error e) :
    e = .invalidVersion ∨ ∃ v, e = .tagAlreadyExists v := by
  simp only [determine_version] at h
  split at h
  · rename_i e0 heq
    simp only [Except.error.injEq] at h
    subst h
    split at heq
    · exact absurd heq (by simp)
    · split at heq
      · simp only [Except.error.injEq] at heq
        exact Or.inl heq.symm
      · exact absurd heq (by simp)
  · rename_i version heq
    split at h
    · simp only [Except.error.injEq] at h
      exact Or.inr ⟨_, h.symm⟩
    · exact absurd h (by simp)

/-! The remote-client functions never emit the publish event. -/

theorem getRunIdLoop_no_publish (pred : Run → Bool) (fetches : Nat → List Run) :
    ∀ (remaining attempt backoff : Nat),
      Event.cargoPublish ∉ (getRunIdLoop pred fetches attempt backoff remaining).2 := by
  intro remaining
  induction remaining with
  | zero => intro attempt backoff; simp [getRunIdLoop]
  | succ n ih =>
    intro attempt backoff
    simp only [getRunIdLoop]
    split
    · simp only [List.mem_cons, not_or]
      exact ⟨by simp, by simp, ih (attempt + 1) (backoff * 2)⟩
    · simp
    · simp

theorem waitLoop_no_publish (runId : Nat) (env : GithubEnv) :
    ∀ (fuel i : Nat), Event.cargoPublish ∉ (waitLoop runId env i fuel).2 := by
  intro fuel
  induction fuel with
  | zero => intro i; simp [waitLoop]
  | succ n ih =>
    intro i
    simp only [waitLoop]
    split
    · split <;> simp
    · split
      · simp
      · simp only [List.mem_cons, not_or]
        exact ⟨by simp, by simp, ih (i + 1)⟩

theorem getWorkflowId_no_publish (g : Github) (env : GithubEnv) :
    Event.cargoPublish ∉ (g.getWorkflowId env).2.2 := by
  unfold Github.getWorkflowId fetchWorkflowId
  split
  · simp
  · split <;> rename_i heq <;> split at heq <;>
      (simp only [Prod.mk.injEq] at heq; rcases heq with ⟨-, rfl⟩) <;> simp

theorem getRunIdBy_no_publish (g : Github) (env : GithubEnv) (pred : Run → Bool) :
    Event.cargoPublish ∉ (g.getRunIdBy env pred).2.2 := by
  have h1 := getWorkflowId_no_publish g env
  have h2 := getRunIdLoop_no_publish pred env.runsListings 4 0 1
  unfold Github.getRunIdBy
  split
  · rename_i e g1 tr heq
    rw [heq] at h1
    simp only [List.mem_cons, not_or]
    exact ⟨by simp, h1⟩
  · rename_i wfid g1 tr heq
    rw [heq] at h1
    rcases hlp : getRunIdLoop pred env.runsListings 0 1 4 with ⟨res, tr2⟩
    rw [hlp] at h2
    simp only [List.mem_cons, List.mem_append, not_or]
    exact ⟨by simp, h1, h2⟩

theorem waitForWorkflowRun_no_publish (runId : Nat) (env : GithubEnv) :
    Event.cargoPublish ∉ (waitForWorkflowRun runId env).2 := by
  have h := waitLoop_no_publish runId env TIMEOUT 0
  unfold waitForWorkflowRun
  rcases hlp : waitLoop runId env 0 TIMEOUT with ⟨res, tr⟩
  rw [hlp] at h
  simp only [List.mem_cons, not_or]
  exact ⟨by simp, h⟩

theorem waitForReleaseWorkflow_no_publish (g : Github) (env : GithubEnv) (version : String) :
    Event.cargoPublish ∉ (g.waitForReleaseWorkflow env version).2.2 := by
  have h1 := getRunIdBy_no_publish g env (fun run => run.head_branch = version)
  unfold Github.waitForReleaseWorkflow
  split
  · rename_i e g1 tr heq
    rw [heq] at h1
    exact h1
  · rename_i runId g1 tr heq
    rw [heq] at h1
    have h2 := waitForWorkflowRun_no_publish runId env
    rcases hw : waitForWorkflowRun runId env with ⟨res, tr2⟩
    rw [hw] at h2
    simp only [List.mem_append, not_or]
    exact ⟨h1, h2⟩

/-- The poller trace starts with the MIN_BUILDTIME hold. -/
theorem waitForWorkflowRun_trace_head (runId : Nat) (env : GithubEnv) :
    ∃ tr, (waitForWorkflowRun runId env).2 = Event.hold MIN_BUILDTIME :: tr := by
  unfold waitForWorkflowRun
  rcases waitLoop runId env 0 TIMEOUT with ⟨res, tr⟩
  exact ⟨tr, rfl⟩

/-- C1 (amended): the minimum-build-time delay is held unconditionally
at the start of every invocation of the Workflow-Completion Poller,
before the first status check, for commit-triggered and tag-triggered
waits alike (not only the first commit-triggered one). -/
theorem C1_min_buildtime_hold (runId : Nat) (env : GithubEnv) (g : Github)
    (version commit : String) :
    (waitForWorkflowRun runId env).2.head? = some (Event.hold MIN_BUILDTIME) ∧
    (∀ rid g1 tr,
      g.getRunIdBy env (fun run => run.head_branch = version) = (.ok rid, g1, tr) →
      Event.hold MIN_BUILDTIME ∈ (g.waitForReleaseWorkflow env version).2.2) ∧
    (∀ rid g1 tr,
      g.getRunIdBy env (fun run => run.head_sha = commit) = (.ok rid, g1, tr) →
      Event.hold MIN_BUILDTIME ∈ (g.waitForCommitWorkflowSuccess env commit).2.2) := by
  refine ⟨?_, ?_, ?_⟩
  · obtain ⟨tr0, htr⟩ := waitForWorkflowRun_trace_head runId env
    rw [htr]
    rfl
  · intro rid g1 tr h
    unfold Github.waitForReleaseWorkflow
    rw [h]
    obtain ⟨tr0, htr⟩ := waitForWorkflowRun_trace_head rid env
    rcases hw : waitForWorkflowRun rid env with ⟨res, tr2⟩
    rw [hw] at htr
    simp only at htr
    subst htr
    simp [hw]
  · intro rid g1 tr h
    unfold Github.waitForCommitWorkflowSuccess
    rw [h]
    obtain ⟨tr0, htr⟩ := waitForWorkflowRun_trace_head rid env
    rcases hw : waitForWorkflowRun rid env with ⟨res, tr2⟩
    rw [hw] at htr
    simp only at htr
    subst htr
    simp [hw]

/-- C1 witness: a concrete commit-triggered wait with the run resolved
on the first attempt performs the MIN_BUILDTIME hold. -/
theorem C1_min_buildtime_hold_witness :
    Event.hold MIN_BUILDTIME ∈
      ((⟨"tok", some 5⟩ : Github).waitForCommitWorkflowSuccess gEnvCommit "abc123").2.2 :=
  (C1_min_buildtime_hold 42 gEnvCommit ⟨"tok", some 5⟩ "v1.2.3" "abc123").2.2
    42 ⟨"tok", some 5⟩ [Event.hold WORKFLOW_FETCH_DELAY, Event.apiListRuns] (by rfl)

/-- C1 counterexample: in a concrete tag-triggered wait the
minimum-build-time hold is performed, refuting the claim that the delay
is not held for a tag-triggered wait. -/
theorem C1_counterexample :
    Event.hold MIN_BUILDTIME ∈
      ((⟨"tok", none⟩ : Github).waitForReleaseWorkflow gEnvTag "v1.2.3").2.2 := by
  decide

/-- C3: invoking the push-and-await-CI step while committed is false
always raises the precondition violation and performs no push action,
and invoking the publish step while released is false always raises the
precondition violation and never invokes the publish command. -/
theorem C3_precondition_guards (env : ActorEnv) (a : ReleaseActor) :
    (a.state.did_commit_run = false →
      (a.push_commit env).1 = .error (.precondition "Tried to push before committing.") ∧
      (a.push_commit env).2.2 = []) ∧
    (a.state.did_release = false →
      (a.cargo_publish env).1 =
        .error (.precondition "Tried to publish cargo package before release.") ∧
      (a.cargo_publish env).2.2 = []) := by
  constructor
  · intro h
    unfold ReleaseActor.push_commit
    rw [if_pos h]
    exact ⟨rfl, rfl⟩
  · intro h
    unfold ReleaseActor.cargo_publish
    rw [if_pos h]
    exact ⟨rfl, rfl⟩

/-- C3 witness: at a fresh actor both guards fire. -/
theorem C3_precondition_guards_witness :
    ((ReleaseActor.start "1.2.3").push_commit envOk).1 =
      .error (.precondition "Tried to push before committing.") ∧
    ((ReleaseActor.start "1.2.3").cargo_publish envOk).1 =
      .error (.precondition "Tried to publish cargo package before release.") :=
  ⟨((C3_precondition_guards envOk (ReleaseActor.start "1.2.3")).1 rfl).1,
   ((C3_precondition_guards envOk (ReleaseActor.start "1.2.3")).2 rfl).1⟩

/-- C10: reading the commit hash while committed is false raises and
performs no version-control query; with committed true the error branch
is unreachable, the hash is obtained with at most one git query, and a
second read returns the same hash and actor with no further query. -/
theorem C10_commit_hash (env : ActorEnv) (a : ReleaseActor) :
    (a.state.did_commit_run = false →
      (a.getCommitHash env).1 =
        .error (.precondition "Tried to read commit hash before committing.") ∧
      (a.getCommitHash env).2 = []) ∧
    (a.state.did_commit_run = true →
      ∃ hsh a1, (a.getCommitHash env).1 = .ok (hsh, a1) ∧
        (a.getCommitHash env).2.length ≤ 1 ∧
        a1.getCommitHash env = (.ok (hsh, a1), [])) := by
  constructor
  · intro h
    unfold ReleaseActor.getCommitHash
    rw [if_pos h]
    exact ⟨rfl, rfl⟩
  · intro h
    cases hc : a.commitHashCache with
    | some h0 =>
      refine ⟨h0, a, ?_, ?_, ?_⟩ <;>
        simp [ReleaseActor.getCommitHash, h, hc]
    | none =>
      refine ⟨env.revParse, { a with commitHashCache := some env.revParse }, ?_, ?_, ?_⟩ <;>
        simp [ReleaseActor.getCommitHash, h, hc]

/-- C10 witness: the guard fires on a fresh actor; on a committed actor
the hash read succeeds with at most one git query. -/
theorem C10_commit_hash_witness :
    ((ReleaseActor.start "1.2.3").getCommitHash envOk).1 =
      .error (.precondition "Tried to read commit hash before committing.") ∧
    (actorCommitted.getCommitHash envOk).2.length ≤ 1 := by
  refine ⟨((C10_commit_hash envOk (ReleaseActor.start "1.2.3")).1 rfl).1, ?_⟩
  obtain ⟨hsh, a1, h1, h2, h3⟩ := (C10_commit_hash envOk actorCommitted).2 rfl
  exact h2

/-- Version determination can only fail with an invalid-version or
tag-exists error. -/
theorem getNewVersion_error_cases (a : ReleaseActor) (env : ActorEnv) (e : Err)
    (h : a.getNewVersion env = .error e) :
    e = .invalidVersion ∨ ∃ v, e = .tagAlreadyExists v := by
  unfold ReleaseActor.getNewVersion at h
  split at h
  · exact absurd h (by simp)
  · split at h
    · rename_i e0 heq
      simp only [Except.error.injEq] at h
      subst h
      exact determine_version_error_cases _ _ _ heq
    · exact absurd h (by simp)

/-- C9 (amended): absence of the bearer credential (GITHUB_TOKEN unset
or empty) is a fatal error, but it is raised lazily at the first access
of the remote client, which happens during the push-and-await-CI step
after the git push has already been issued; the earlier release steps
(manifest edit, changelog, commit) never raise it. -/
theorem C9_token_checked_lazily (env : ActorEnv) (a : ReleaseActor)
    (htok : env.token = none ∨ env.token = some "") :
    (a.github = none → a.state.did_commit_run = true →
      (a.push_commit env).1 = .error .missingToken ∧
      Event.gitPush ["origin", "master"] ∈ (a.push_commit env).2.2) ∧
    ((a.update_cargo_toml env).1 ≠ .error .missingToken ∧
     (a.update_changelog env).1 ≠ .error .missingToken ∧
     (a.commit_release env).1 ≠ .error .missingToken) := by
  constructor
  · intro hgit hcommit
    have hg : a.getGithub env = .error .missingToken := by
      unfold ReleaseActor.getGithub
      rw [hgit]
      rcases htok with h | h <;> simp [h]
    constructor
    · simp [ReleaseActor.push_commit, hcommit, hg]
    · simp [ReleaseActor.push_commit, hcommit, hg]
  · refine ⟨?_, ?_, ?_⟩
    · intro h
      unfold ReleaseActor.update_cargo_toml at h
      split at h
      · rename_i e heq
        simp only [Except.error.injEq] at h
        subst h
        rcases getNewVersion_error_cases _ _ _ heq with h1 | ⟨v, h1⟩ <;> simp at h1
      · split at h <;> simp at h
    · intro h
      unfold ReleaseActor.update_changelog at h
      split at h
      · rename_i e heq
        simp only [Except.error.injEq] at h
        subst h
        rcases getNewVersion_error_cases _ _ _ heq with h1 | ⟨v, h1⟩ <;> simp at h1
      · simp at h
    · intro h
      unfold ReleaseActor.commit_release at h
      split at h
      · rename_i e heq
        simp only [Except.error.injEq] at h
        subst h
        rcases getNewVersion_error_cases _ _ _ heq with h1 | ⟨v, h1⟩ <;> simp at h1
      · simp at h

/-- C9 witness: with the token unset, the push step of a committed actor
fails with the missing-token error while the manifest-edit step does not. -/
theorem C9_token_checked_lazily_witness :
    (actorCommitted.push_commit envNoToken).1 = .error .missingToken ∧
    ((ReleaseActor.start "1.2.3").update_cargo_toml envNoToken).1 ≠ .error .missingToken :=
  ⟨((C9_token_checked_lazily envNoToken actorCommitted (Or.inl rfl)).1 rfl rfl).1,
   ((C9_token_checked_lazily envNoToken (ReleaseActor.start "1.2.3") (Or.inl rfl)).2).1⟩

/-- C9 counterexample: with GITHUB_TOKEN unset the run does fail with
the missing-token error, but only after the commit and the git push have
already been performed, refuting the claim that the error is raised at
startup before any release step is attempted. -/
theorem C9_counterexample :
    (mainSteps envNoToken "1.2.3").1 = .error .missingToken ∧
    Event.gitCommit "Release v1.2.3" ∈ (mainSteps envNoToken "1.2.3").2.2 ∧
    Event.gitPush ["origin", "master"] ∈ (mainSteps envNoToken "1.2.3").2.2 := by
  refine ⟨by rfl, by decide, by decide⟩

/-- C4: with a memoized workflow id, a predicate that never matches
yields exactly 4 listing fetches and the RunNotFound error, with sleeps
of 1, 2 and 4 seconds between successive attempts (and a final doubled
sleep after the last empty fetch); a predicate that matches one run only
on the 4th fetch returns that run after sleeping 1, 2 and 4 seconds. -/
theorem C4_resolver_bounded_retry (g : Github) (env : GithubEnv) (pred : Run → Bool)
    (n : Nat) (hmemo : g.workflowId = some (n + 1)) :
    ((∀ i, i < 4 → (env.runsListings i).filter pred = []) →
      g.getRunIdBy env pred =
        (.error .runNotFound, g,
          [.hold WORKFLOW_FETCH_DELAY, .apiListRuns, .sleepFor 1, .apiListRuns, .sleepFor 2,
           .apiListRuns, .sleepFor 4, .apiListRuns, .sleepFor 8])) ∧
    (∀ r, (∀ i, i < 3 → (env.runsListings i).filter pred = []) →
      (env.runsListings 3).filter pred = [r] →
      g.getRunIdBy env pred =
        (.ok r.id, g,
          [.hold WORKFLOW_FETCH_DELAY, .apiListRuns, .sleepFor 1, .apiListRuns, .sleepFor 2,
           .apiListRuns, .sleepFor 4, .apiListRuns])) := by
  have hwf : g.getWorkflowId env = (.ok (n + 1), g, []) := by
    unfold Github.getWorkflowId
    rw [hmemo]
  constructor
  · intro hf
    have h0 := hf 0 (by omega)
    have h1 := hf 1 (by omega)
    have h2 := hf 2 (by omega)
    have h3 := hf 3 (by omega)
    unfold Github.getRunIdBy
    rw [hwf]
    simp [getRunIdLoop, h0, h1, h2, h3]
  · intro r hf h3
    have h0 := hf 0 (by omega)
    have h1 := hf 1 (by omega)
    have h2 := hf 2 (by omega)
    unfold Github.getRunIdBy
    rw [hwf]
    simp [getRunIdLoop, h0, h1, h2, h3]

/-- C4 witness: a concrete environment whose listings are empty on the
first three fetches and contain the matching run on the fourth. -/
theorem C4_resolver_bounded_retry_witness :
    (Github.getRunIdBy ⟨"tok", some 5⟩
        ⟨[wfPublish], fun i => if i < 3 then [] else [runOkCommit],
          fun _ => runOkCommit, "v1.2.3"⟩
        (fun run => run.head_sha = "abc123")) =
      (.ok 42, ⟨"tok", some 5⟩,
        [.hold WORKFLOW_FETCH_DELAY, .apiListRuns, .sleepFor 1, .apiListRuns, .sleepFor 2,
         .apiListRuns, .sleepFor 4, .apiListRuns]) :=
  (C4_resolver_bounded_retry ⟨"tok", some 5⟩
      ⟨[wfPublish], fun i => if i < 3 then [] else [runOkCommit],
        fun _ => runOkCommit, "v1.2.3"⟩
      (fun run => run.head_sha = "abc123") 4 rfl).2 runOkCommit
    (by intro i hi; interval_cases i <;> rfl) (by rfl)

/-- The Python max over a nonempty list returns a member of the list. -/
theorem pyMaxByRunNumber_mem (rs : List Run) : ∀ r : Run, pyMaxByRunNumber r rs ∈ r :: rs := by
  induction rs with
  | nil => intro r; simp [pyMaxByRunNumber]
  | cons y ys ih =>
    intro r
    have hstep : pyMaxByRunNumber r (y :: ys) =
        pyMaxByRunNumber (if y.run_number > r.run_number then y else r) ys := by
      simp [pyMaxByRunNumber]
    rw [hstep]
    have hm := ih (if y.run_number > r.run_number then y else r)
    rcases List.mem_cons.mp hm with h | h
    · rw [h]
      split <;> simp
    · simp [h]

/-- The Python max over a nonempty list dominates every member. -/
theorem pyMaxByRunNumber_ge (rs : List Run) :
    ∀ r : Run, ∀ x ∈ r :: rs, x.run_number ≤ (pyMaxByRunNumber r rs).run_number := by
  induction rs with
  | nil =>
    intro r x hx
    simp at hx
    simp [pyMaxByRunNumber, hx]
  | cons y ys ih =>
    intro r x hx
    have hstep : pyMaxByRunNumber r (y :: ys) =
        pyMaxByRunNumber (if y.run_number > r.run_number then y else r) ys := by
      simp [pyMaxByRunNumber]
    rw [hstep]
    have hhead := ih (if y.run_number > r.run_number then y else r)
        (if y.run_number > r.run_number then y else r) (by simp)
    rcases List.mem_cons.mp hx with h | h
    · subst h
      refine le_trans ?_ hhead
      split <;> omega
    · rcases List.mem_cons.mp h with h2 | h2
      · subst h2
        refine le_trans ?_ hhead
        split <;> omega
      · exact ih (if y.run_number > r.run_number then y else r) x (List.mem_cons_of_mem _ h2)

/-- C7: when the predicate matches several runs in the first fetched
listing, the resolver returns the id of the matching run with the
greatest run-sequence-number, a run that is itself among the matches. -/
theorem C7_latest_wins (pred : Run → Bool) (fetches : Nat → List Run) (r r2 : Run)
    (rs : List Run) (hfil : (fetches 0).filter pred = r :: r2 :: rs) :
    (getRunIdLoop pred fetches 0 1 4).1 = .ok (pyMaxByRunNumber r (r2 :: rs)).id ∧
    pyMaxByRunNumber r (r2 :: rs) ∈ r :: r2 :: rs ∧
    (∀ x ∈ r :: r2 :: rs, x.run_number ≤ (pyMaxByRunNumber r (r2 :: rs)).run_number) := by
  refine ⟨?_, pyMaxByRunNumber_mem _ r, pyMaxByRunNumber_ge _ r⟩
  simp [getRunIdLoop, hfil]

/-- C7 witness: two matching runs with sequence numbers 7 and 9; the
resolver returns the id of the run with sequence number 9. -/
theorem C7_latest_wins_witness :
    (getRunIdLoop (fun run => run.head_branch = "v1.2.3")
        (fun _ => [runOkTag, runOkTag2]) 0 1 4).1 = .ok 44 := by
  have h := (C7_latest_wins (fun run => run.head_branch = "v1.2.3")
      (fun _ => [runOkTag, runOkTag2]) runOkTag runOkTag2 [] (by rfl)).1
  rw [h]
  rfl

/-- If the first completed poll is at index k within the deadline, the
poll loop classifies that poll by its conclusion. -/
theorem waitLoop_completes (runId : Nat) (env : GithubEnv) :
    ∀ (fuel i k : Nat), i ≤ k → k < 90 → k - i < fuel →
      (∀ j, i ≤ j → j < k → (env.runPolls j).status ≠ "completed") →
      (env.runPolls k).status = "completed" →
      (waitLoop runId env i fuel).1 =
        (if (env.runPolls k).conclusion = "success" then Except.ok ()
         else Except.error (.workflowFailed (env.runPolls k).conclusion)) := by
  intro fuel
  induction fuel with
  | zero => intro i k h1 h2 h3 h4 h5; omega
  | succ fuel ih =>
    intro i k hik hk hfuel hnc hc
    by_cases hei : i = k
    · subst hei
      simp only [waitLoop]
      rw [if_pos hc]
      split <;> simp_all
    · have hlt : i < k := Nat.lt_of_le_of_ne hik hei
      have hnci := hnc i le_rfl hlt
      simp only [waitLoop]
      rw [if_neg hnci]
      rw [if_neg (by simp only [TIMEOUT, WORKFLOW_POLL_SECONDS]; omega)]
      have h := ih (i + 1) k hlt hk (by omega) (fun j hj1 hj2 => hnc j (by omega) hj2) hc
      rcases hw : waitLoop runId env (i + 1) fuel with ⟨res, tr⟩
      rw [hw] at h
      simpa using h

/-- If no poll before the deadline completes, the poll loop fails with
the timeout error after exactly 90 - i further polls and sleeps. -/
theorem waitLoop_timesOut (runId : Nat) (env : GithubEnv)
    (hnc : ∀ j, j < 90 → (env.runPolls j).status ≠ "completed") :
    ∀ (fuel i : Nat), i < 90 → 90 - i ≤ fuel →
      (waitLoop runId env i fuel).1 = .error .timeoutExpired ∧
      (waitLoop runId env i fuel).2.count (Event.apiGetRun runId) = 90 - i ∧
      (waitLoop runId env i fuel).2.count (Event.sleepFor WORKFLOW_POLL_SECONDS) = 90 - i := by
  intro fuel
  induction fuel with
  | zero => intro i h1 h2; omega
  | succ fuel ih =>
    intro i hi hf
    have hs := hnc i (by omega)
    simp only [waitLoop]
    rw [if_neg hs]
    by_cases hlast : 89 ≤ i
    · have hieq : i = 89 := by omega
      subst hieq
      rw [if_pos (by simp only [TIMEOUT, WORKFLOW_POLL_SECONDS]; omega)]
      refine ⟨rfl, ?_, ?_⟩ <;> simp [List.count_cons]
    · rw [if_neg (by simp only [TIMEOUT, WORKFLOW_POLL_SECONDS]; omega)]
      have ihh := ih (i + 1) (by omega) (by omega)
      rcases hw : waitLoop runId env (i + 1) fuel with ⟨res, tr⟩
      rw [hw] at ihh
      obtain ⟨ih1, ih2, ih3⟩ := ihh
      simp only at ih1 ih2 ih3
      refine ⟨by simpa using ih1, ?_, ?_⟩ <;>
        simp [List.count_cons, ih2, ih3] <;> omega

/-- C5: once a fetched run reports status completed, the poller returns
success exactly when the conclusion is success and otherwise fails fatally
carrying the observed conclusion; and when no poll completes, the poller
fails with the timeout error after exactly 90 polls and 90 sleeps of
WORKFLOW_POLL_SECONDS, the deadline being the TIMEOUT measured once from
the start of the wait, never reset per iteration. -/
theorem C5_poller_terminal (runId : Nat) (env : GithubEnv) (k : Nat) :
    (k < 90 → (∀ j, j < k → (env.runPolls j).status ≠ "completed") →
      (env.runPolls k).status = "completed" →
      (waitForWorkflowRun runId env).1 =
        (if (env.runPolls k).conclusion = "success" then Except.ok ()
         else Except.error (.workflowFailed (env.runPolls k).conclusion))) ∧
    ((∀ j, j < 90 → (env.runPolls j).status ≠ "completed") →
      (waitForWorkflowRun runId env).1 = .error .timeoutExpired ∧
      (waitForWorkflowRun runId env).2.count (Event.apiGetRun runId) = 90 ∧
      (waitForWorkflowRun runId env).2.count (Event.sleepFor WORKFLOW_POLL_SECONDS) = 90 ∧
      90 * WORKFLOW_POLL_SECONDS = TIMEOUT) := by
  constructor
  · intro hk hnc hc
    have h := waitLoop_completes runId env TIMEOUT 0 k (by omega) hk
        (by simp only [TIMEOUT]; omega) (fun j hj1 hj2 => hnc j hj2) hc
    unfold waitForWorkflowRun
    rcases hw : waitLoop runId env 0 TIMEOUT with ⟨res, tr⟩
    rw [hw] at h
    simpa using h
  · intro hnc
    have h := waitLoop_timesOut runId env hnc TIMEOUT 0 (by omega)
        (by simp only [TIMEOUT]; omega)
    unfold waitForWorkflowRun
    rcases hw : waitLoop runId env 0 TIMEOUT with ⟨res, tr⟩
    rw [hw] at h
    obtain ⟨h1, h2, h3⟩ := h
    refine ⟨by simpa using h1, ?_, ?_, by rfl⟩
    · simpa [List.count_cons] using h2
    · simpa [List.count_cons] using h3

/-- C5 witness: a run that is already completed successfully on the
first poll yields success; a run that never completes yields the
timeout error. -/
theorem C5_poller_terminal_witness :
    (waitForWorkflowRun 43 gEnvTag).1 = Except.ok () ∧
    (waitForWorkflowRun 42 gEnvBusy).1 = .error .timeoutExpired := by
  constructor
  · have h := (C5_poller_terminal 43 gEnvTag 0).1 (by omega)
      (fun j hj => absurd hj (Nat.not_lt_zero j)) (by rfl)
    simpa [gEnvTag, runOkTag] using h
  · exact ((C5_poller_terminal 42 gEnvBusy 0).2
      (fun j hj => by show runBusy.status ≠ "completed"; decide)).1

/-- check_release leaves the state unchanged or sets only the release flag. -/
theorem check_release_state (a : ReleaseActor) (env : ActorEnv) :
    (a.check_release env).2.1.state = a.state ∨
    (a.check_release env).2.1.state = { a.state with did_release := true } := by
  unfold ReleaseActor.check_release
  split
  · exact Or.inl rfl
  · rename_i g a1 heq
    have h1 := (getGithub_fields _ _ _ _ heq).1
    split
    · exact Or.inl h1
    · rename_i v a2 heq2
      have h2 := (getNewVersion_fields _ _ _ _ heq2).1
      split
      · exact Or.inl (h2.trans h1)
      · refine Or.inr ?_
        have h21 : a2.state = a.state := h2.trans h1
        simp [h21]

/-- Every orchestrator step either leaves the flag state unchanged or
sets exactly one flag, the push and release flags only under their
respective precondition guards. -/
theorem stepActor_state_shape (env : ActorEnv) (a : ReleaseActor) (op : StepOp) :
    (stepActor env a op).state = a.state ∨
    (stepActor env a op).state = { a.state with did_commit_run := true } ∨
    (a.state.did_commit_run = true ∧
      (stepActor env a op).state = { a.state with did_push_commit := true }) ∨
    (a.state.did_push_commit = true ∧
      (stepActor env a op).state = { a.state with did_release := true }) := by
  cases op with
  | updateCargoToml =>
    simp only [stepActor, runStep, ReleaseActor.update_cargo_toml]
    split
    · exact Or.inl rfl
    · rename_i v a1 heq
      have hf := (getNewVersion_fields _ _ _ _ heq).1
      split
      · exact Or.inl hf
      · exact Or.inl hf
  | updateChangelog =>
    simp only [stepActor, runStep, ReleaseActor.update_changelog]
    split
    · exact Or.inl rfl
    · rename_i v a1 heq
      exact Or.inl (getNewVersion_fields _ _ _ _ heq).1
  | commitRelease =>
    simp only [stepActor, runStep, ReleaseActor.commit_release]
    split
    · exact Or.inl rfl
    · rename_i v a1 heq
      have hf := (getNewVersion_fields _ _ _ _ heq).1
      refine Or.inr (Or.inl ?_)
      simp [hf]
  | pushCommit =>
    simp only [stepActor, runStep, ReleaseActor.push_commit]
    split
    · exact Or.inl rfl
    · rename_i hguard
      have hc : a.state.did_commit_run = true := by
        cases h : a.state.did_commit_run
        · exact absurd h hguard
        · rfl
      split
      · exact Or.inl rfl
      · rename_i g a1 heq
        have h1 := (getGithub_fields _ _ _ _ heq).1
        split
        · exact Or.inl h1
        · rename_i h0 a2 tr1 heq2
          have h2 := (getCommitHash_fields _ _ _ _ (by rw [heq2])).1
          split
          · exact Or.inl (h2.trans h1)
          · refine Or.inr (Or.inr (Or.inl ⟨hc, ?_⟩))
            have h21 : a2.state = a.state := h2.trans h1
            simp [h21]
  | runRelease =>
    simp only [stepActor, runStep, ReleaseActor.run_release]
    split
    · exact Or.inl rfl
    · rename_i hguard
      have hp : a.state.did_push_commit = true := by
        cases h : a.state.did_push_commit
        · exact absurd h hguard
        · rfl
      split
      · exact Or.inl rfl
      · rename_i v a1 heq
        have h1 := (getNewVersion_fields _ _ _ _ heq).1
        split
        · exact Or.inl h1
        · rename_i g a2 heq2
          have h2 := (getGithub_fields _ _ _ _ heq2).1
          split
          · exact Or.inl (h2.trans h1)
          · have h21 : a2.state = a.state := h2.trans h1
            have hcr := check_release_state
              { a2 with github := some (g.waitForReleaseWorkflow env.tagPhase ("v" ++ v)).2.1 } env
            rcases hcr with hcr | hcr
            · exact Or.inl (hcr.trans h21)
            · refine Or.inr (Or.inr (Or.inr ⟨hp, ?_⟩))
              rw [hcr]
              simp [h21]
  | cargoPublishOp =>
    simp only [stepActor, runStep, ReleaseActor.cargo_publish]
    split
    · exact Or.inl rfl
    · exact Or.inl rfl

/-- C2: along every sequence of orchestrator steps each flag is monotone
(never reset), and every state reachable from the initial all-false
state satisfies pushed implies committed and released implies pushed. -/
theorem C2_flag_invariants :
    (∀ (env : ActorEnv) (a : ReleaseActor) (op : StepOp),
      ReleaseState.mono a.state (stepActor env a op).state) ∧
    (∀ (env : ActorEnv) (arg : String) (ops : List StepOp),
      ReleaseState.inv (runOps env (ReleaseActor.start arg) ops).state) := by
  have hmono : ∀ (env : ActorEnv) (a : ReleaseActor) (op : StepOp),
      ReleaseState.mono a.state (stepActor env a op).state := by
    intro env a op
    rcases stepActor_state_shape env a op with h | h | ⟨hg, h⟩ | ⟨hg, h⟩ <;>
      simp only [ReleaseState.mono, h] <;> simp_all
  have hinv : ∀ (env : ActorEnv) (a : ReleaseActor) (op : StepOp),
      ReleaseState.inv a.state → ReleaseState.inv (stepActor env a op).state := by
    intro env a op hi
    rcases stepActor_state_shape env a op with h | h | ⟨hg, h⟩ | ⟨hg, h⟩ <;>
      simp only [ReleaseState.inv, h] at * <;> simp_all
  refine ⟨hmono, ?_⟩
  intro env arg ops
  have hrun : ∀ (ops : List StepOp) (a : ReleaseActor), ReleaseState.inv a.state →
      ReleaseState.inv (runOps env a ops).state := by
    intro ops
    induction ops with
    | nil => intro a h; exact h
    | cons op ops ih =>
      intro a h
      exact ih _ (hinv env a op h)
  refine hrun ops _ ?_
  simp only [ReleaseState.inv, ReleaseActor.start, ReleaseState.start]
  simp

/-- C2 witness: a concrete successful commit-push-release run reaches a
state with the release flag set, and the invariant yields the push flag. -/
theorem C2_flag_invariants_witness :
    (runOps envOk (ReleaseActor.start "1.2.3")
        [.commitRelease, .pushCommit, .runRelease]).state.did_push_commit = true := by
  refine (C2_flag_invariants.2 envOk "1.2.3" [.commitRelease, .pushCommit, .runRelease]).2 ?_
  decide

/-- C6: if after a successful tag wait the latest published release
carries a tag other than the letter v followed by the computed version,
the orchestrator raises the fatal mismatch error, the released flag is
not set, and the publish command is never invoked. -/
theorem C6_release_mismatch (env : ActorEnv) (a : ReleaseActor) (v : String)
    (g : Github) (a1 : ReleaseActor)
    (hp : a.state.did_push_commit = true)
    (hr : a.state.did_release = false)
    (hv : a.newVersionCache = some v)
    (hgh : a.getGithub env = .ok (g, a1))
    (hwait : (g.waitForReleaseWorkflow env.tagPhase ("v" ++ v)).1 = .ok ())
    (hmis : env.tagPhase.latestReleaseTag ≠ "v" ++ v) :
    (runReleaseThenPublish a env).1 = .error (.releaseMismatch env.tagPhase.latestReleaseTag) ∧
    (runReleaseThenPublish a env).2.1.state.did_release = false ∧
    Event.cargoPublish ∉ (runReleaseThenPublish a env).2.2 := by
  have hf := getGithub_fields _ _ _ _ hgh
  have hnp := waitForReleaseWorkflow_no_publish g env.tagPhase ("v" ++ v)
  have hnv : a.getNewVersion env = .ok (v, a) := by
    unfold ReleaseActor.getNewVersion
    rw [hv]
  rcases hw : g.waitForReleaseWorkflow env.tagPhase ("v" ++ v) with ⟨res, g1, trw⟩
  rw [hw] at hwait hnp
  simp only at hwait hnp
  subst hwait
  have hnc3 : ({ a1 with github := some g1 } : ReleaseActor).newVersionCache = some v := by
    show a1.newVersionCache = some v
    rw [hf.2.1, hv]
  have hnv3 : ({ a1 with github := some g1 } : ReleaseActor).getNewVersion env
      = .ok (v, { a1 with github := some g1 }) := by
    unfold ReleaseActor.getNewVersion
    rw [hnc3]
  have hg3 : ({ a1 with github := some g1 } : ReleaseActor).getGithub env
      = .ok (g1, { a1 with github := some g1 }) := by
    unfold ReleaseActor.getGithub
    rfl
  have hcr : ({ a1 with github := some g1 } : ReleaseActor).check_release env
      = (.error (.releaseMismatch env.tagPhase.latestReleaseTag),
         { a1 with github := some g1 }, [Event.apiLatestRelease]) := by
    unfold ReleaseActor.check_release
    simp only [hg3, hnv3]
    rw [if_pos hmis]
  have hrr : a.run_release env =
      (.error (.releaseMismatch env.tagPhase.latestReleaseTag),
       { a1 with github := some g1 },
       [Event.gitTagCreate ("v" ++ v), Event.gitPush ["origin", "v" ++ v]] ++
         trw ++ [Event.apiLatestRelease]) := by
    unfold ReleaseActor.run_release
    rw [if_neg (by simp [hp])]
    simp only [hnv, hgh, hw, hcr]
  have happ : runReleaseThenPublish a env =
      (.error (.releaseMismatch env.tagPhase.latestReleaseTag),
       { a1 with github := some g1 },
       [Event.gitTagCreate ("v" ++ v), Event.gitPush ["origin", "v" ++ v]] ++
         trw ++ [Event.apiLatestRelease]) := by
    unfold runReleaseThenPublish seqStep
    simp only [hrr]
  rw [happ]
  refine ⟨rfl, ?_, ?_⟩
  · show a1.state.did_release = false
    rw [hf.1]
    exact hr
  · simp [List.mem_append, hnp]

/-- C6 witness: a concrete run where the remote reports latest release
v1.2.2 while the expected tag is v1.2.3. -/
theorem C6_release_mismatch_witness :
    (runReleaseThenPublish actorPushed envTagBad).1 = .error (.releaseMismatch "v1.2.2") ∧
    (runReleaseThenPublish actorPushed envTagBad).2.1.state.did_release = false ∧
    Event.cargoPublish ∉ (runReleaseThenPublish actorPushed envTagBad).2.2 :=
  C6_release_mismatch envTagBad actorPushed "1.2.3" ⟨"tok", none⟩
    { actorPushed with github := some ⟨"tok", none⟩ } rfl rfl rfl (by rfl) (by rfl) (by decide)

/-- takeWhile of a run of satisfying characters followed by a failing
one is exactly the run. -/
theorem takeWhile_all_append (p : Char → Bool) (a : List Char) (x : Char) (r : List Char)
    (ha : ∀ c ∈ a, p c = true) (hx : p x = false) :
    (a ++ x :: r).takeWhile p = a := by
  induction a with
  | nil => simp [List.takeWhile_cons, hx]
  | cons c cs ih =>
    have hc := ha c (List.mem_cons_self c cs)
    simp only [List.cons_append, List.takeWhile_cons, hc, if_true]
    rw [ih (fun d hd => ha d (List.mem_cons_of_mem c hd))]

/-- dropWhile of a run of satisfying characters followed by a failing
one is the failing character and the rest. -/
theorem dropWhile_all_append (p : Char → Bool) (a : List Char) (x : Char) (r : List Char)
    (ha : ∀ c ∈ a, p c = true) (hx : p x = false) :
    (a ++ x :: r).dropWhile p = x :: r := by
  induction a with
  | nil => simp [List.dropWhile_cons, hx]
  | cons c cs ih =>
    have hc := ha c (List.mem_cons_self c cs)
    simp only [List.cons_append, List.dropWhile_cons, hc, if_true]
    exact ih (fun d hd => ha d (List.mem_cons_of_mem c hd))

/-- takeWhile of an all-satisfying list is the whole list. -/
theorem takeWhile_all (p : Char → Bool) (l : List Char) (h : ∀ c ∈ l, p c = true) :
    l.takeWhile p = l := by
  induction l with
  | nil => rfl
  | cons c cs ih =>
    have hc := h c (List.mem_cons_self c cs)
    simp only [List.takeWhile_cons, hc, if_true]
    rw [ih (fun d hd => h d (List.mem_cons_of_mem c hd))]

/-- dropWhile of an all-satisfying list is empty. -/
theorem dropWhile_all (p : Char → Bool) (l : List Char) (h : ∀ c ∈ l, p c = true) :
    l.dropWhile p = [] := by
  induction l with
  | nil => rfl
  | cons c cs ih =>
    have hc := h c (List.mem_cons_self c cs)
    simp only [List.dropWhile_cons, hc, if_true]
    exact ih (fun d hd => h d (List.mem_cons_of_mem c hd))

/-- The embedded dotted-numeric pattern accepts exactly the lists of the
specification shape: three nonempty digit groups separated by dots. -/
theorem semverCore_iff (l : List Char) : semverCore l = true ↔ SemverShape l := by
  constructor
  · intro h
    unfold semverCore at h
    split at h
    · rename_i d ds r1 heq1 heq2
      split at h
      · rename_i e es r2 heq3 heq4
        split at h
        · rename_i f fs heq5 heq6
          refine ⟨d :: ds, e :: es, f :: fs, ⟨by simp, ?_⟩, ⟨by simp, ?_⟩, ⟨by simp, ?_⟩, ?_⟩
          · exact fun c hc => List.mem_takeWhile_imp (by rw [heq1]; exact hc)
          · exact fun c hc => List.mem_takeWhile_imp (by rw [heq3]; exact hc)
          · exact fun c hc => List.mem_takeWhile_imp (by rw [heq5]; exact hc)
          · have hl : l = (d :: ds) ++ '.' :: r1 := by
              rw [← heq1, ← heq2, List.takeWhile_append_dropWhile]
            have hr1 : r1 = (e :: es) ++ '.' :: r2 := by
              rw [← heq3, ← heq4, List.takeWhile_append_dropWhile]
            have hr2 : r2 = f :: fs := by
              have := List.takeWhile_append_dropWhile (p := Char.isDigit) (l := r2)
              rw [heq5, heq6] at this
              simpa using this.symm
            rw [hl, hr1, hr2]
        · exact absurd h (by simp)
      · exact absurd h (by simp)
    · exact absurd h (by simp)
  · rintro ⟨a, b, c, ⟨ha1, ha2⟩, ⟨hb1, hb2⟩, ⟨hc1, hc2⟩, rfl⟩
    have hdot : Char.isDigit '.' = false := by decide
    rcases a with _ | ⟨a0, as⟩
    · exact absurd rfl ha1
    rcases b with _ | ⟨b0, bs⟩
    · exact absurd rfl hb1
    rcases c with _ | ⟨c0, cs⟩
    · exact absurd rfl hc1
    simp only [semverCore,
      takeWhile_all_append Char.isDigit (a0 :: as) '.' _ ha2 hdot,
      dropWhile_all_append Char.isDigit (a0 :: as) '.' _ ha2 hdot,
      takeWhile_all_append Char.isDigit (b0 :: bs) '.' _ hb2 hdot,
      dropWhile_all_append Char.isDigit (b0 :: bs) '.' _ hb2 hdot,
      takeWhile_all Char.isDigit (c0 :: cs) hc2,
      dropWhile_all Char.isDigit (c0 :: cs) hc2]

/-- A specification-shaped version string starts with a digit. -/
theorem semverShape_head (v : List Char) (h : SemverShape v) :
    ∃ d ds, v = d :: ds ∧ Char.isDigit d = true := by
  obtain ⟨a, b, c, ⟨ha1, ha2⟩, -, -, hv⟩ := h
  rcases a with _ | ⟨a0, as⟩
  · exact absurd rfl ha1
  · exact ⟨a0, as ++ '.' :: (b ++ '.' :: c), by rw [hv]; rfl,
      ha2 a0 (List.mem_cons_self a0 as)⟩

/-- The embedded anchored pattern matches with capture group v exactly
when the input is v or v prefixed with the letter v and v has the
specification shape. -/
theorem semverMatch_iff (l v : List Char) :
    semverMatch l = some v ↔ ((l = v ∨ l = 'v' :: v) ∧ SemverShape v) := by
  constructor
  · intro h
    unfold semverMatch at h
    split at h
    · rename_i rest
      split at h
      · rename_i hcore
        simp only [Option.some.injEq] at h
        subst h
        exact ⟨Or.inr rfl, (semverCore_iff _).mp hcore⟩
      · exact absurd h (by simp)
    · split at h
      · rename_i hcore
        simp only [Option.some.injEq] at h
        subst h
        exact ⟨Or.inl rfl, (semverCore_iff _).mp hcore⟩
      · exact absurd h (by simp)
  · rintro ⟨hl, hshape⟩
    have hcore : semverCore v = true := (semverCore_iff v).mpr hshape
    obtain ⟨d, ds, hv, hd⟩ := semverShape_head v hshape
    have hdv : d ≠ 'v' := by
      intro hcon
      rw [hcon] at hd
      exact absurd hd (by decide)
    rcases hl with rfl | rfl
    · rw [hv]
      unfold semverMatch
      split
      · rename_i rest heq
        exact absurd (List.head_eq_of_cons_eq heq) hdv
      · rw [← hv]
        rw [if_pos hcore]
    · unfold semverMatch
      split
      · rename_i rest heq
        have : v = rest := List.tail_eq_of_cons_eq heq
        rw [← this, if_pos hcore]
      · rename_i hnone
        exact absurd rfl (hnone v)

/-- A specification-shaped version argument is never one of the literal
bump levels. -/
theorem semver_not_bump (s v : String)
    (hl : s.data = v.data ∨ s.data = 'v' :: v.data) (hshape : SemverShape v.data) :
    s ∉ (["major", "minor", "patch"] : List String) := by
  intro hmem
  obtain ⟨d, ds, hv, hd⟩ := semverShape_head v.data hshape
  have hs : s.data = d :: ds ∨ s.data = 'v' :: d :: ds := by
    rcases hl with h | h
    · exact Or.inl (h.trans hv)
    · exact Or.inr (by rw [h, hv])
  have hdv : d ≠ 'v' := by
    intro hcon
    rw [hcon] at hd
    exact absurd hd (by decide)
  simp only [List.mem_cons, List.not_mem_nil, or_false] at hmem
  rcases hmem with rfl | rfl | rfl <;>
    rcases hs with h | h <;>
      (simp only [show ("major" : String).data = ['m', 'a', 'j', 'o', 'r'] from rfl,
         show ("minor" : String).data = ['m', 'i', 'n', 'o', 'r'] from rfl,
         show ("patch" : String).data = ['p', 'a', 't', 'c', 'h'] from rfl,
         List.cons.injEq] at h) <;>
      obtain ⟨h1, -⟩ := h <;> first
        | (rw [← h1] at hd; exact absurd hd (by decide))
        | exact absurd h1 (by decide)

/-- C8: determine_version accepts exactly the literal bump levels major,
minor, patch (case-insensitively, after trimming) or an explicit
semantic version of the specification shape optionally prefixed with the
letter v, returning the version without the prefix; any other argument
fails with the invalid-version error, and an otherwise valid version
whose tag file already exists fails with the tag-exists error. -/
theorem C8_determine_version (env : VersionEnv) (raw : String) :
    (∀ v : String, determine_version env raw = .ok v ↔
      (env.tagExists v = false ∧
        ((pyLowerStrip raw ∈ (["major", "minor", "patch"] : List String) ∧
            v = pyStripS (env.changieNext (pyLowerStrip raw))) ∨
          (((pyLowerStrip raw).data = v.data ∨ (pyLowerStrip raw).data = 'v' :: v.data) ∧
            SemverShape v.data)))) ∧
    (pyLowerStrip raw ∉ (["major", "minor", "patch"] : List String) →
      semverMatch (pyLowerStrip raw).data = none →
      determine_version env raw = .error .invalidVersion) ∧
    (∀ v : String,
      ((pyLowerStrip raw).data = v.data ∨ (pyLowerStrip raw).data = 'v' :: v.data) →
      SemverShape v.data →
      env.tagExists v = true →
      determine_version env raw = .error (.tagAlreadyExists v)) := by
  by_cases hb : pyLowerStrip raw ∈ (["major", "minor", "patch"] : List String)
  · have hdv : determine_version env raw =
        (if env.tagExists (pyStripS (env.changieNext (pyLowerStrip raw))) then
          .error (.tagAlreadyExists (pyStripS (env.changieNext (pyLowerStrip raw))))
        else .ok (pyStripS (env.changieNext (pyLowerStrip raw)))) := by
      simp only [determine_version, if_pos hb]
    refine ⟨?_, ?_, ?_⟩
    · intro v
      constructor
      · intro h
        rw [hdv] at h
        split at h
        · exact absurd h (by simp)
        · rename_i htag
          simp only [Except.ok.injEq] at h
          subst h
          exact ⟨by simpa using htag, Or.inl ⟨hb, rfl⟩⟩
      · rintro ⟨htag, hcase | hcase⟩
        · obtain ⟨-, rfl⟩ := hcase
          rw [hdv, if_neg (by simp [htag])]
        · exact absurd hb (semver_not_bump _ _ hcase.1 hcase.2)
    · intro hnb _
      exact absurd hb hnb
    · intro v hl hshape _
      exact absurd hb (semver_not_bump _ _ hl hshape)
  · cases hsm : semverMatch (pyLowerStrip raw).data with
    | none =>
      have hdv : determine_version env raw = .error .invalidVersion := by
        simp only [determine_version, if_neg hb, hsm]
      refine ⟨?_, ?_, ?_⟩
      · intro v
        rw [hdv]
        constructor
        · intro h
          exact absurd h (by simp)
        · rintro ⟨htag, hcase | hcase⟩
          · exact absurd hcase.1 hb
          · have hs := (semverMatch_iff (pyLowerStrip raw).data v.data).mpr ⟨hcase.1, hcase.2⟩
            rw [hsm] at hs
            exact absurd hs (by simp)
      · intro _ _
        exact hdv
      · intro v hl hshape _
        have hs := (semverMatch_iff (pyLowerStrip raw).data v.data).mpr ⟨hl, hshape⟩
        rw [hsm] at hs
        exact absurd hs (by simp)
    | some g1 =>
      have hg1 := (semverMatch_iff (pyLowerStrip raw).data g1).mp hsm
      have hdv : determine_version env raw =
          (if env.tagExists (String.mk g1) then .error (.tagAlreadyExists (String.mk g1))
           else .ok (String.mk g1)) := by
        simp only [determine_version, if_neg hb, hsm]
      refine ⟨?_, ?_, ?_⟩
      · intro v
        constructor
        · intro h
          rw [hdv] at h
          split at h
          · exact absurd h (by simp)
          · rename_i htag
            simp only [Except.ok.injEq] at h
            subst h
            exact ⟨by simpa using htag, Or.inr ⟨hg1.1, hg1.2⟩⟩
        · rintro ⟨htag, hcase | hcase⟩
          · exact absurd hcase.1 hb
          · have hs := (semverMatch_iff (pyLowerStrip raw).data v.data).mpr ⟨hcase.1, hcase.2⟩
            rw [hsm] at hs
            simp only [Option.some.injEq] at hs
            rw [hdv]
            have hveq : String.mk g1 = v := by rw [hs]
            rw [hveq, if_neg (by simp [htag])]
      · intro _ hnone
        exact absurd hnone (by simp)
      · intro v hl hshape htag
        have hs := (semverMatch_iff (pyLowerStrip raw).data v.data).mpr ⟨hl, hshape⟩
        rw [hsm] at hs
        simp only [Option.some.injEq] at hs
        rw [hdv]
        have hveq : String.mk g1 = v := by rw [hs]
        rw [hveq, if_pos htag]

/-- C8 witness: a v-prefixed uppercase argument with surrounding blanks
is accepted without the prefix, a bump level goes through changie, and
an unparsable argument is rejected. -/
theorem C8_determine_version_witness :
    determine_version vEnvOk " V1.2.3 " = .ok "1.2.3" ∧
    determine_version vEnvOk "PATCH" = .ok "1.2.4" ∧
    determine_version vEnvOk "garbage" = .error .invalidVersion := by
  refine ⟨?_, ?_, ?_⟩
  · refine ((C8_determine_version vEnvOk " V1.2.3 ").1 "1.2.3").mpr
      ⟨rfl, Or.inr ⟨Or.inr ?_, ?_⟩⟩
    · decide
    · exact ⟨['1'], ['2'], ['3'], ⟨by decide, by decide⟩, ⟨by decide, by decide⟩,
        ⟨by decide, by decide⟩, by decide⟩
  · exact ((C8_determine_version vEnvOk "PATCH").1 "1.2.4").mpr
      ⟨rfl, Or.inl ⟨by decide, by decide⟩⟩
  · exact (C8_determine_version vEnvOk "garbage").2.1 (by decide) (by decide)
